import Mathlib

/-!
Shallow embedding of `kmz2geotiff.py`, a batch converter from KMZ archives
to GeoTIFF rasters, together with proofs settling the frozen claims about it.

Modelling conventions:
* The filesystem is a list of existing paths (`List String`), treated as a
  set; directories and files both appear as paths.  Path join is string
  concatenation with a slash (POSIX separator, so the source line
  `icon.text.replace("/", os.sep)` is the identity).
* External effects (unzipping, XML parsing results, GDAL open/translate/warp
  outcomes) are oracles carried by an `Archive` record, since their results
  depend on bytes outside the program; every branch the Python code can take
  on those results is reproduced.
* Observable actions (directory creation, extraction, parsing, translate,
  warp, file removal, printed status lines) are recorded as an `Event` trace.
* Python `float()` is modelled on its decimal-literal fragment
  (sign, digits, optional fraction, optional exponent); the exotic inputs it
  also accepts (inf, nan, underscores) are not needed by any claim.
* Machine floats are modelled as `Rat`; the source only moves the parsed
  numbers around, it never computes with them before handing them to GDAL.
-/

/-- Split a character list at every character satisfying `p` (each separator
ends the current piece), like Python `str.split` with a one-character
separator. -/
def splitWhenAux (p : Char → Bool) : List Char → List Char → List (List Char)
  | [], acc => [acc.reverse]
  | c :: cs, acc =>
    if p c then acc.reverse :: splitWhenAux p cs []
    else splitWhenAux p cs (c :: acc)

/-- Split at separators chosen by `p`; empty pieces are kept, as in Python
`s.split(",")`. -/
def splitWhen (p : Char → Bool) (s : String) : List String :=
  (splitWhenAux p s.toList []).map String.mk

/-- Python `s.split(",")`. -/
def pySplitComma (s : String) : List String :=
  splitWhen (fun c => c == ',') s

/-- Python `s.split()` with no argument: split on whitespace runs, dropping
empty tokens. -/
def pySplitWhitespace (s : String) : List String :=
  (splitWhen Char.isWhitespace s).filter (fun t => t ≠ "")

/-- Python `s.strip()`: drop whitespace at both ends. -/
def pyStrip (s : String) : String :=
  String.mk (((s.toList.dropWhile Char.isWhitespace).reverse.dropWhile
    Char.isWhitespace).reverse)

/-- Is `pre` a prefix of `cs`, character by character. -/
def startsWithChars : List Char → List Char → Bool
  | [], _ => true
  | _ :: _, [] => false
  | a :: as, b :: bs => a == b && startsWithChars as bs

/-- Is `suf` a suffix of `cs`. -/
def endsWithChars (suf cs : List Char) : Bool :=
  startsWithChars suf.reverse cs.reverse

/-- Python `s.lower()` (ASCII fragment, enough for the `.kml` check). -/
def pyLower (s : String) : String := String.mk (s.toList.map Char.toLower)

/-- Python `s.endswith(suf)`. -/
def pyEndsWith (s suf : String) : Bool := endsWithChars suf.toList s.toList

/-- Numeric value of a list of decimal digit characters. -/
def digitsToNat (ds : List Char) : Nat :=
  ds.foldl (fun n c => 10 * n + (c.toNat - 48)) 0

/-- The rational `n * 10 ^ exp10`. -/
def decimalValue (n : Int) (exp10 : Int) : Rat :=
  match exp10 with
  | Int.ofNat k => ((n * (((10 : Nat) ^ k : Nat) : Int) : Int) : Rat)
  | Int.negSucc k => mkRat n ((10 : Nat) ^ (k + 1))

/-- Parse the mantissa part of a Python float literal: `d+`, `d+.d*` or
`.d+`; returns the integer digits, the fraction digits and the unconsumed
rest. -/
def parseMantissa (s : List Char) : Option (List Char × List Char × List Char) :=
  let ip := s.takeWhile Char.isDigit
  let rest := s.dropWhile Char.isDigit
  match rest with
  | '.' :: rest2 =>
    let fp := rest2.takeWhile Char.isDigit
    let rest3 := rest2.dropWhile Char.isDigit
    if ip.isEmpty && fp.isEmpty then none
    else some (ip, fp, rest3)
  | _ =>
    if ip.isEmpty then none
    else some (ip, [], rest)

/-- Parse an optional exponent suffix `[eE][+-]?d+` that must consume the
whole rest of the token; empty input means exponent 0. -/
def parseExpPart (s : List Char) : Option Int :=
  match s with
  | [] => some 0
  | c :: rest =>
    if c == 'e' || c == 'E' then
      match rest with
      | '+' :: ds => if !ds.isEmpty && ds.all Char.isDigit then some (digitsToNat ds : Int) else none
      | '-' :: ds => if !ds.isEmpty && ds.all Char.isDigit then some (-(digitsToNat ds : Int)) else none
      | ds => if !ds.isEmpty && ds.all Char.isDigit then some (digitsToNat ds : Int) else none
    else none

/-- Python float literal with the sign already consumed: mantissa followed
by an optional exponent; the value is
`sign * digits(ip ++ fp) * 10 ^ (e - |fp|)`. -/
def pyFloatSigned (sign : Int) (cs : List Char) : Option Rat :=
  match parseMantissa cs with
  | none => none
  | some (ip, fp, rest) =>
    match parseExpPart rest with
    | none => none
    | some e => some (decimalValue (sign * (digitsToNat (ip ++ fp) : Int)) (e - (fp.length : Int)))

/-- Model of Python `float(s)` on its decimal-literal fragment (optional
sign, digits, optional fraction, optional exponent); `none` models the
`ValueError` raised on non-numeric input. -/
def pyFloat (s : String) : Option Rat :=
  match s.toList with
  | '+' :: rest => pyFloatSigned 1 rest
  | '-' :: rest => pyFloatSigned (-1) rest
  | rest => pyFloatSigned 1 rest

/-- Option-valued traversal of a list: `some` exactly when `f` succeeds on
every element.  Models a Python comprehension in which any element failure
raises. -/
def traverseOpt {α β : Type} (f : α → Option β) : List α → Option (List β)
  | [] => some []
  | x :: xs =>
    match f x, traverseOpt f xs with
    | some y, some ys => some (y :: ys)
    | _, _ => none

/-- One coordinate token: `tuple(map(float, c.split(",")))` from source
line 58.  The tuple length is whatever number of comma-separated fields the
token has; no count check happens here. -/
def parsePoint (c : String) : Option (List Rat) :=
  traverseOpt pyFloat (pySplitComma c)

/-- The whole quad text: source line 58,
`[tuple(map(float, c.split(","))) for c in latlon_quad.text.strip().split()]`. -/
def parseCoords (text : String) : Option (List (List Rat)) :=
  traverseOpt parsePoint (pySplitWhitespace (pyStrip text))

/-- A GDAL ground-control point `gdal.GCP(x, y, z, pixel, line)`: geographic
coordinates (x = longitude, y = latitude, z) bound to an image pixel
position (`pixel` = column, `line` = row). -/
structure GCP where
  geoX : Rat
  geoY : Rat
  geoZ : Rat
  pixel : Nat
  line : Nat
deriving DecidableEq, Repr

/-- One `gdal.GCP(pt[0], pt[1], 0, pixel, line)` call: Python indexing
`pt[0]`/`pt[1]` raises `IndexError` when the tuple is shorter than 2, which
the surrounding `except` turns into a failure; hence `Option`. -/
def mkGCP (pt : List Rat) (pixel line : Nat) : Option GCP :=
  match pt with
  | x :: y :: _ => some ⟨x, y, 0, pixel, line⟩
  | _ => none

/-- The `gcps = [...]` list from source lines 75 to 80: corner 0 at pixel
(0, height), corner 1 at (width, height), corner 2 at (width, 0), corner 3
at (0, 0), each with geographic z = 0. -/
def mkGCPs (coords : List (List Rat)) (width height : Nat) : Option (List GCP) := do
  let g0 ← mkGCP (coords.getD 0 []) 0 height
  let g1 ← mkGCP (coords.getD 1 []) width height
  let g2 ← mkGCP (coords.getD 2 []) width 0
  let g3 ← mkGCP (coords.getD 3 []) 0 0
  pure [g0, g1, g2, g3]

/-- POSIX path join, `os.path.join(a, b)` on Linux. -/
def joinPath (a b : String) : String := a ++ "/" ++ b

/-- `os.path.basename`: the component after the last slash. -/
def basename (p : String) : String :=
  (splitWhen (fun c => c == '/') p).getLastD ("")

/-- Root part of `os.path.splitext`: strip the extension beginning at the
last dot, except that a run of leading dots never starts an extension
(`.bashrc` keeps its name). -/
def splitextRoot (s : String) : String :=
  let cs := s.toList
  let dots := cs.takeWhile (fun c => c == '.')
  let rest := cs.drop dots.length
  if rest.any (fun c => c == '.') then
    String.mk (dots ++ ((rest.reverse.dropWhile (fun c => c ≠ '.')).drop 1).reverse)
  else s

/-- `OUTPUT_FOLDER`, source line 10, relative to the script directory. -/
def OUTPUT_FOLDER : String := "Converted GeoTIFFs"

/-- `LOG_FILE`, source line 13. -/
def LOG_FILE : String := joinPath OUTPUT_FOLDER ("conversion_log.txt")

/-- Failure conditions of one conversion; each corresponds to one `raise`
site (or library exception) inside the `try` block of `convert_kmz`. -/
inductive ConvError where
  | extractionError
  | noKmlFound
  | kmlParseError
  | noLatLonQuad
  | invalidCoordinate
  | wrongPointCount
  | noOverlayOrIcon
  | imageNotFound (p : String)
  | openFailed
  | indexError
  | translateFailed
  | warpFailed
deriving DecidableEq, Repr

/-- The message carried by each exception (the text interpolated into the
failure status line). -/
def describe : ConvError → String
  | .extractionError => "BadZipFile"
  | .noKmlFound => "No KML found"
  | .kmlParseError => "KML parse error"
  | .noLatLonQuad => "No LatLonQuad found"
  | .invalidCoordinate => "could not convert string to float"
  | .wrongPointCount => "LatLonQuad does not have 4 points"
  | .noOverlayOrIcon => "NoneType has no attribute"
  | .imageNotFound p => "Image file not found: " ++ p
  | .openFailed => "Failed to open image file"
  | .indexError => "tuple index out of range"
  | .translateFailed => "Translate failed"
  | .warpFailed => "Warp failed"

/-- Observable actions of a conversion run, in program order. -/
inductive Event where
  | makedirs (p : String)
  | extractAll (src dst : String)
  | parseKml (p : String)
  | translate (dst : String)
  | warp (dst : String)
  | removeFile (p : String)
  | printMsg (s : String)
  | summary (succ skip fail : List String)
deriving DecidableEq, Repr

/-- One input archive together with the oracle outcomes of the external
libraries on its bytes: `extract` is `none` when `zipfile` raises, otherwise
the member names; `parseOk` is the outcome of `ET.parse` on the first KML;
`quadText` is the text of the `LatLonQuad/coordinates` element when found;
`href` is the `GroundOverlay/Icon/href` text when that chain of lookups
succeeds; `openImage` is `gdal.Open`'s size when the image decodes;
`translateOk` and `warpOk` are the GDAL step outcomes. -/
structure Archive where
  path : String
  extract : Option (List String)
  parseOk : Bool
  quadText : Option String
  href : Option String
  openImage : Option (Nat × Nat)
  translateOk : Bool
  warpOk : Bool
deriving DecidableEq, Repr

/-- `base = os.path.splitext(os.path.basename(kmz_path))[0]`, line 22. -/
def baseOf (a : Archive) : String := splitextRoot (basename a.path)

/-- `out_tif = os.path.join(OUTPUT_FOLDER, f"{base}.tif")`, line 23. -/
def outTifOf (a : Archive) : String := joinPath OUTPUT_FOLDER (baseOf a ++ ".tif")

/-- `tmp_dir = os.path.join(OUTPUT_FOLDER, "_temp", base)`, line 35. -/
def tmpDirOf (a : Archive) : String := joinPath (joinPath OUTPUT_FOLDER ("_temp")) (baseOf a)

/-- `tmp_tif = os.path.join(OUTPUT_FOLDER, f"{base}_with_gcps.tif")`, line 83. -/
def tmpTifOf (a : Archive) : String := joinPath OUTPUT_FOLDER (baseOf a ++ "_with_gcps.tif")

/-- Add a path to the filesystem set (idempotent). -/
def insertPath (fs : List String) (p : String) : List String :=
  if p ∈ fs then fs else fs ++ [p]

/-- `os.remove`: drop a path from the filesystem set. -/
def removePath (fs : List String) (p : String) : List String :=
  fs.filter (fun q => q ≠ p)

/-- `os.listdir d`: the immediate entries of directory `d` present in the
filesystem (paths under `d` with no further separator). -/
def listdir (fs : List String) (d : String) : List String :=
  fs.filterMap (fun p =>
    let dcs := d.toList ++ ['/']
    if startsWithChars dcs p.toList then
      let rest := p.toList.drop dcs.length
      if rest.any (fun c => c == '/') then none else some (String.mk rest)
    else none)

/-- Filesystem after `os.makedirs(tmp_dir)` and `z.extractall(tmp_dir)`:
the temp directory plus every member under it. -/
def extractedFs (fs : List String) (a : Archive) (mem : List String) : List String :=
  mem.foldl (fun s m => insertPath s (joinPath (tmpDirOf a) m)) (insertPath fs (tmpDirOf a))

/-- `kml_files = [f for f in os.listdir(tmp_dir) if f.lower().endswith(".kml")]`,
line 41. -/
def kmlCandidates (fs : List String) (a : Archive) : List String :=
  (listdir fs (tmpDirOf a)).filter (fun f => pyEndsWith (pyLower f) (".kml"))

/-- Source lines 40 to 67, the descriptor-parsing stage of the `try` block:
locate the first KML, parse it, read the quad coordinates, validate the
point count, locate the overlay image and check it exists.  This stage only
reads the filesystem; it returns its events and either the first error or
the parsed coordinate tuples. -/
def parsePhase (a : Archive) (fs2 : List String) :
    List Event × Except ConvError (List (List Rat)) :=
  match kmlCandidates fs2 a with
  | [] => ([], Except.error ConvError.noKmlFound)
  | kml0 :: _ =>
    let evs := [Event.parseKml (joinPath (tmpDirOf a) kml0)]
    if !a.parseOk then (evs, Except.error ConvError.kmlParseError)
    else match a.quadText with
    | none => (evs, Except.error ConvError.noLatLonQuad)
    | some text =>
      match parseCoords text with
      | none => (evs, Except.error ConvError.invalidCoordinate)
      | some coords =>
        if coords.length ≠ 4 then (evs, Except.error ConvError.wrongPointCount)
        else match a.href with
        | none => (evs, Except.error ConvError.noOverlayOrIcon)
        | some href =>
          let img_file := joinPath (tmpDirOf a) href
          if img_file ∉ fs2 then (evs, Except.error (ConvError.imageNotFound img_file))
          else (evs, Except.ok coords)

/-- Source lines 69 to 104, the raster stage of the `try` block: open the
image, build the 4 ground-control points, translate to the intermediate
`tmp_tif`, warp to `out_tif`, then remove the intermediate.  Note that
`os.remove(tmp_tif)` runs only after a successful warp: on a warp failure
the intermediate file stays. -/
def gdalPhase (a : Archive) (fs2 : List String) (coords : List (List Rat)) :
    List String × List Event × Option ConvError :=
  match a.openImage with
  | none => (fs2, [], some ConvError.openFailed)
  | some (width, height) =>
    match mkGCPs coords width height with
    | none => (fs2, [], some ConvError.indexError)
    | some _ =>
      let tmp_tif := tmpTifOf a
      let evs1 := [Event.translate tmp_tif]
      if !a.translateOk then (fs2, evs1, some ConvError.translateFailed)
      else
        let fs3 := insertPath fs2 tmp_tif
        let evs2 := evs1 ++ [Event.warp (outTifOf a)]
        if !a.warpOk then (fs3, evs2, some ConvError.warpFailed)
        else
          (removePath (insertPath fs3 (outTifOf a)) tmp_tif,
           evs2 ++ [Event.removeFile tmp_tif], none)

/-- The body of the `try` block of `convert_kmz` (source lines 33 to 104,
up to and including `os.remove(tmp_tif)`): make and fill the extraction
directory, then run the parsing stage and the raster stage.  Threads the
filesystem, records events in program order, and returns the exception (if
any) that transfers control to the `except` handler.  The outcome-list
updates happen in `convert_kmz`. -/
def tryBody (a : Archive) (fs0 : List String) :
    List String × List Event × Option ConvError :=
  let tmp_dir := tmpDirOf a
  match a.extract with
  | none => (insertPath fs0 tmp_dir, [Event.makedirs tmp_dir], some ConvError.extractionError)
  | some mem =>
    let fs2 := extractedFs fs0 a mem
    let evs0 := [Event.makedirs tmp_dir, Event.extractAll a.path tmp_dir]
    match parsePhase a fs2 with
    | (pevs, Except.error e) => (fs2, evs0 ++ pevs, some e)
    | (pevs, Except.ok coords) =>
      let g := gdalPhase a fs2 coords
      (g.1, evs0 ++ pevs ++ g.2.1, g.2.2)

/-- Mutable module state of the script: the filesystem plus the three
outcome lists `success_list`, `failed_list`, `skipped_list` (lines 16 to 18). -/
structure BatchState where
  fs : List String
  success_list : List String
  failed_list : List String
  skipped_list : List String
deriving DecidableEq, Repr

/-- `convert_kmz(kmz_path)`, source lines 21 to 110: skip when the output
already exists, otherwise run the try body and record the outcome. -/
def convert_kmz (a : Archive) (st : BatchState) : BatchState × List Event :=
  if outTifOf a ∈ st.fs then
    ({ st with skipped_list := st.skipped_list ++ [baseOf a] },
     [Event.printMsg ("Skipping " ++ baseOf a ++ " (already exists)")])
  else
    match tryBody a st.fs with
    | (fs', evs, none) =>
      ({ st with fs := fs', success_list := st.success_list ++ [baseOf a] },
       Event.printMsg ("Processing " ++ baseOf a ++ " ...") :: evs
         ++ [Event.printMsg ("Saved GeoTIFF: " ++ outTifOf a)])
    | (fs', evs, some e) =>
      ({ st with fs := fs', failed_list := st.failed_list ++ [baseOf a] },
       Event.printMsg ("Processing " ++ baseOf a ++ " ...") :: evs
         ++ [Event.printMsg ("Failed: " ++ baseOf a ++ " -> " ++ describe e)])

/-- The `for kmz in kmz_files: convert_kmz(...)` loop of `main`, lines 136
to 137. -/
def runBatch : List Archive → BatchState → BatchState × List Event
  | [], st => (st, [])
  | a :: rest, st =>
    let p1 := convert_kmz a st
    let p2 := runBatch rest p1.1
    (p2.1, p1.2 ++ p2.2)

/-- `sorted_names = sorted(set(success_list))`, line 118. -/
def sorted_names (l : List String) : List String :=
  List.insertionSort (fun x y => x ≤ y) l.dedup

/-- `log_successful_conversions()`, lines 113 to 125: the log file content
as a list of lines, appended with one timestamped section when there were
successes, untouched otherwise. -/
def log_successful_conversions (su : List String) (timestamp : String)
    (log : List String) : List String :=
  if su.isEmpty then log
  else log ++ [""] ++ ["--- Conversion on " ++ timestamp ++ " ---"]
       ++ sorted_names su ++ [""]

/-- `main()`, lines 130 to 151: discovery of the archive list itself is
directory scanning outside the model, so the discovered archives are a
parameter; with no archives the function prints a notice and returns before
the loop, the summary and the log write.  (Named `mainRun` because Lean
reserves `main` for an executable entry point.) -/
def mainRun (archives : List Archive) (st : BatchState) (timestamp : String)
    (log : List String) : BatchState × List Event × List String :=
  if archives.isEmpty then
    (st, [Event.printMsg ("No KMZ files found")], log)
  else
    let p := runBatch archives st
    (p.1,
     p.2 ++ [Event.summary p.1.success_list p.1.skipped_list p.1.failed_list,
             Event.printMsg ("CONVERSION COMPLETE")],
     log_successful_conversions p.1.success_list timestamp log)

/-- Outcome-list total of a batch state: how many archive outcomes have been
recorded overall. -/
def outcomeCount (st : BatchState) : Nat :=
  st.success_list.length + st.skipped_list.length + st.failed_list.length

/-- Recognizer for the final-summary event of `mainRun`. -/
def isSummary : Event → Bool
  | .summary _ _ _ => true
  | _ => false

/-- A well-formed sample archive on which every stage succeeds. -/
def sampleArchive : Archive :=
  { path := "overlay.kmz"
    extract := some ["doc.kml", "img.png"]
    parseOk := true
    quadText := some "-122.5,37.8,0 -122.4,37.8,0 -122.4,37.7,0 -122.5,37.7,0"
    href := some "img.png"
    openImage := some (100, 200)
    translateOk := true
    warpOk := true }

/-- A sample archive whose quad text holds only three coordinate tuples. -/
def threePointArchive : Archive :=
  { path := "tri.kmz"
    extract := some ["doc.kml", "img.png"]
    parseOk := true
    quadText := some "0,0 1,0 1,1"
    href := some "img.png"
    openImage := some (10, 10)
    translateOk := true
    warpOk := false }

/-- A sample archive on which everything succeeds until the warp step
fails. -/
def warpFailArchive : Archive :=
  { path := "overlay2.kmz"
    extract := some ["doc.kml", "img.png"]
    parseOk := true
    quadText := some "0,0 1,0 1,1 0,1"
    href := some "img.png"
    openImage := some (100, 200)
    translateOk := true
    warpOk := false }

/-- A sample archive that is not a readable zip container. -/
def badZipArchive : Archive :=
  { path := "bad.kmz"
    extract := none
    parseOk := false
    quadText := none
    href := none
    openImage := none
    translateOk := false
    warpOk := false }

/-- The initial batch state: empty filesystem, empty outcome lists. -/
def emptyState : BatchState := ⟨[], [], [], []⟩

/-- A batch state in which the output file of `sampleArchive` already
exists. -/
def skipState : BatchState := ⟨[joinPath OUTPUT_FOLDER ("overlay.tif")], [], [], []⟩

/-! ### Helper lemmas about the filesystem model -/

theorem mem_insertPath_self (fs : List String) (p : String) : p ∈ insertPath fs p := by
  unfold insertPath; split
  · assumption
  · simp

theorem mem_insertPath_of_mem {fs : List String} {q : String} (p : String) (h : q ∈ fs) :
    q ∈ insertPath fs p := by
  unfold insertPath; split
  · exact h
  · simp [h]

theorem mem_foldl_insertPath (f : String → String) (mem : List String) (s : List String)
    (q : String) (h : q ∈ s) :
    q ∈ mem.foldl (fun acc m => insertPath acc (f m)) s := by
  induction mem generalizing s with
  | nil => exact h
  | cons m ms ih => exact ih _ (mem_insertPath_of_mem _ h)

theorem mem_extractedFs {fs : List String} {q : String} (a : Archive) (mem : List String)
    (h : q ∈ insertPath fs (tmpDirOf a)) : q ∈ extractedFs fs a mem := by
  unfold extractedFs
  exact mem_foldl_insertPath (fun m => joinPath (tmpDirOf a) m) mem _ q h

theorem mem_removePath_of_ne {q p : String} (fs : List String) (hne : q ≠ p) (h : q ∈ fs) :
    q ∈ removePath fs p := by
  unfold removePath; simp [List.mem_filter, h, hne]

theorem not_mem_removePath (fs : List String) (p : String) : p ∉ removePath fs p := by
  unfold removePath; simp [List.mem_filter]

theorem length_joinPath (a b : String) : (joinPath a b).length = a.length + 1 + b.length := by
  unfold joinPath
  rw [String.length_append, String.length_append]
  have h : String.length ("/") = 1 := rfl
  omega

theorem joinPath_ne_of_length {a b c d : String}
    (h : a.length + b.length ≠ c.length + d.length) : joinPath a b ≠ joinPath c d := by
  intro he
  apply h
  have h2 := congrArg String.length he
  rw [length_joinPath, length_joinPath] at h2
  omega

theorem tmpTif_ne_tmpDir (a : Archive) : tmpTifOf a ≠ tmpDirOf a := by
  unfold tmpTifOf tmpDirOf
  apply joinPath_ne_of_length
  rw [String.length_append]
  have h1 : String.length OUTPUT_FOLDER = 18 := rfl
  have h2 : (joinPath OUTPUT_FOLDER ("_temp")).length = 24 := rfl
  have h3 : String.length ("_with_gcps.tif") = 14 := rfl
  omega

theorem outTif_ne_tmpTif (a : Archive) : outTifOf a ≠ tmpTifOf a := by
  unfold outTifOf tmpTifOf
  apply joinPath_ne_of_length
  rw [String.length_append, String.length_append]
  have h1 : String.length (".tif") = 4 := rfl
  have h2 : String.length ("_with_gcps.tif") = 14 := rfl
  omega

/-! ### Stage lemmas -/

theorem parsePhase_events (a : Archive) (fs2 : List String) :
    ∀ e ∈ (parsePhase a fs2).1, ∃ p, e = Event.parseKml p := by
  unfold parsePhase
  repeat' split
  all_goals simp [apply_ite Prod.fst]

theorem gdalPhase_shape (a : Archive) (fs2 : List String) (coords : List (List Rat)) :
    ((gdalPhase a fs2 coords).2.2 = none →
      (gdalPhase a fs2 coords).1 =
        removePath (insertPath (insertPath fs2 (tmpTifOf a)) (outTifOf a)) (tmpTifOf a)) ∧
    ((gdalPhase a fs2 coords).2.2 = some ConvError.warpFailed →
      (gdalPhase a fs2 coords).1 = insertPath fs2 (tmpTifOf a)) ∧
    (∀ e, (gdalPhase a fs2 coords).2.2 = some e → e ≠ ConvError.warpFailed →
      (gdalPhase a fs2 coords).1 = fs2) ∧
    (∀ p, Event.removeFile p ∈ (gdalPhase a fs2 coords).2.1 → p = tmpTifOf a) := by
  unfold gdalPhase
  repeat' split
  all_goals simp

theorem gdalPhase_keeps (a : Archive) (fs2 : List String) (coords : List (List Rat))
    {q : String} (hq : q ∈ fs2) (hne : q ≠ tmpTifOf a) :
    q ∈ (gdalPhase a fs2 coords).1 := by
  unfold gdalPhase
  repeat' split
  all_goals
    first
      | exact hq
      | exact mem_insertPath_of_mem _ hq
      | exact mem_removePath_of_ne _ hne (mem_insertPath_of_mem _ (mem_insertPath_of_mem _ hq))

/-! ### Lemmas about the try-block body -/

theorem tryBody_keeps_tmpDir (a : Archive) (fs : List String) :
    tmpDirOf a ∈ (tryBody a fs).1 := by
  unfold tryBody
  rcases hex : a.extract with _ | mem
  all_goals dsimp only
  · exact mem_insertPath_self fs (tmpDirOf a)
  · rcases hpp : parsePhase a (extractedFs fs a mem) with ⟨pevs, e | coords⟩
    all_goals dsimp only
    · exact mem_extractedFs a mem (mem_insertPath_self fs (tmpDirOf a))
    · exact gdalPhase_keeps a _ coords
        (mem_extractedFs a mem (mem_insertPath_self fs (tmpDirOf a)))
        (Ne.symm (tmpTif_ne_tmpDir a))

theorem tryBody_removeFile (a : Archive) (fs : List String) :
    ∀ p, Event.removeFile p ∈ (tryBody a fs).2.1 → p = tmpTifOf a := by
  unfold tryBody
  rcases hex : a.extract with _ | mem
  all_goals dsimp only
  · intro p hp; simp at hp
  · rcases hpp : parsePhase a (extractedFs fs a mem) with ⟨pevs, e | coords⟩
    all_goals dsimp only
    · intro p hp
      have hpe := parsePhase_events a (extractedFs fs a mem)
      rw [hpp] at hpe
      simp only [List.mem_append, List.mem_cons, List.not_mem_nil, or_false] at hp
      rcases hp with (h | h) | h
      · cases h
      · cases h
      · rcases hpe _ h with ⟨q, hq⟩; cases hq
    · intro p hp
      have hpe := parsePhase_events a (extractedFs fs a mem)
      rw [hpp] at hpe
      have hg := (gdalPhase_shape a (extractedFs fs a mem) coords).2.2.2
      simp only [List.mem_append, List.mem_cons, List.not_mem_nil, or_false] at hp
      rcases hp with ((h | h) | h) | h
      · cases h
      · cases h
      · rcases hpe _ h with ⟨q, hq⟩; cases hq
      · exact hg p h

theorem parsePhase_error_ne_warpfail (a : Archive) (fs2 : List String) :
    (parsePhase a fs2).2 ≠ Except.error ConvError.warpFailed := by
  unfold parsePhase
  repeat' split
  all_goals simp [apply_ite Prod.snd]
  all_goals (split <;> simp)

theorem tryBody_success_fs (a : Archive) (fs : List String)
    (h : (tryBody a fs).2.2 = none) :
    outTifOf a ∈ (tryBody a fs).1 ∧ tmpTifOf a ∉ (tryBody a fs).1 := by
  unfold tryBody at h ⊢
  rcases hex : a.extract with _ | mem
  all_goals rw [hex] at h; all_goals dsimp only at h ⊢
  · cases h
  · rcases hpp : parsePhase a (extractedFs fs a mem) with ⟨pevs, e | coords⟩
    all_goals rw [hpp] at h
    all_goals dsimp only at h ⊢
    · cases h
    · have hg := (gdalPhase_shape a (extractedFs fs a mem) coords).1 h
      rw [hg]
      constructor
      · exact mem_removePath_of_ne _ (outTif_ne_tmpTif a) (mem_insertPath_self _ _)
      · exact not_mem_removePath _ _

theorem tryBody_warpfail_fs (a : Archive) (fs : List String)
    (h : (tryBody a fs).2.2 = some ConvError.warpFailed) :
    tmpTifOf a ∈ (tryBody a fs).1 := by
  unfold tryBody at h ⊢
  rcases hex : a.extract with _ | mem
  all_goals rw [hex] at h; all_goals dsimp only at h ⊢
  · cases h
  · rcases hpp : parsePhase a (extractedFs fs a mem) with ⟨pevs, e | coords⟩
    all_goals rw [hpp] at h
    all_goals dsimp only at h ⊢
    · exfalso
      apply parsePhase_error_ne_warpfail a (extractedFs fs a mem)
      rw [hpp]
      injection h with h2
      rw [h2]
    · have hg := (gdalPhase_shape a (extractedFs fs a mem) coords).2.1 h
      rw [hg]
      exact mem_insertPath_self _ _

/-! ### Lemmas about one conversion and the batch loop -/

theorem convert_skip_eq (a : Archive) (st : BatchState) (h : outTifOf a ∈ st.fs) :
    convert_kmz a st =
      ({ st with skipped_list := st.skipped_list ++ [baseOf a] },
       [Event.printMsg ("Skipping " ++ baseOf a ++ " (already exists)")]) := by
  unfold convert_kmz
  rw [if_pos h]

theorem convert_fail_eq (a : Archive) (st : BatchState) (fs2 : List String)
    (evs : List Event) (e : ConvError) (hns : outTifOf a ∉ st.fs)
    (htb : tryBody a st.fs = (fs2, evs, some e)) :
    convert_kmz a st =
      ({ st with fs := fs2, failed_list := st.failed_list ++ [baseOf a] },
       Event.printMsg ("Processing " ++ baseOf a ++ " ...") :: evs
         ++ [Event.printMsg ("Failed: " ++ baseOf a ++ " -> " ++ describe e)]) := by
  unfold convert_kmz
  rw [if_neg hns, htb]

theorem convert_ok_eq (a : Archive) (st : BatchState) (fs2 : List String)
    (evs : List Event) (hns : outTifOf a ∉ st.fs)
    (htb : tryBody a st.fs = (fs2, evs, none)) :
    convert_kmz a st =
      ({ st with fs := fs2, success_list := st.success_list ++ [baseOf a] },
       Event.printMsg ("Processing " ++ baseOf a ++ " ...") :: evs
         ++ [Event.printMsg ("Saved GeoTIFF: " ++ outTifOf a)]) := by
  unfold convert_kmz
  rw [if_neg hns, htb]

theorem convert_cases (a : Archive) (st : BatchState) :
    ((convert_kmz a st).1.success_list = st.success_list ++ [baseOf a] ∧
     (convert_kmz a st).1.failed_list = st.failed_list ∧
     (convert_kmz a st).1.skipped_list = st.skipped_list) ∨
    ((convert_kmz a st).1.failed_list = st.failed_list ++ [baseOf a] ∧
     (convert_kmz a st).1.success_list = st.success_list ∧
     (convert_kmz a st).1.skipped_list = st.skipped_list) ∨
    ((convert_kmz a st).1.skipped_list = st.skipped_list ++ [baseOf a] ∧
     (convert_kmz a st).1.success_list = st.success_list ∧
     (convert_kmz a st).1.failed_list = st.failed_list) := by
  by_cases h : outTifOf a ∈ st.fs
  · rw [convert_skip_eq a st h]
    right; right; exact ⟨rfl, rfl, rfl⟩
  · rcases htb : tryBody a st.fs with ⟨fs2, evs, _ | e⟩
    · rw [convert_ok_eq a st fs2 evs h htb]
      left; exact ⟨rfl, rfl, rfl⟩
    · rw [convert_fail_eq a st fs2 evs e h htb]
      right; left; exact ⟨rfl, rfl, rfl⟩

theorem convert_outcomeCount (a : Archive) (st : BatchState) :
    outcomeCount (convert_kmz a st).1 = outcomeCount st + 1 := by
  rcases convert_cases a st with ⟨h1, h2, h3⟩ | ⟨h1, h2, h3⟩ | ⟨h1, h2, h3⟩ <;>
    · unfold outcomeCount
      rw [h1, h2, h3]
      simp [List.length_append]
      omega

theorem runBatch_outcomeCount (as : List Archive) (st : BatchState) :
    outcomeCount (runBatch as st).1 = outcomeCount st + as.length := by
  induction as generalizing st with
  | nil => rfl
  | cons a rest ih =>
    show outcomeCount (runBatch rest (convert_kmz a st).1).1 = _
    rw [ih, convert_outcomeCount]
    simp [List.length_cons]
    omega

theorem convert_failed_extends (a : Archive) (st : BatchState) :
    ∃ l, (convert_kmz a st).1.failed_list = st.failed_list ++ l := by
  rcases convert_cases a st with ⟨_, h2, _⟩ | ⟨h1, _, _⟩ | ⟨_, _, h3⟩
  · exact ⟨[], by simpa using h2⟩
  · exact ⟨[baseOf a], h1⟩
  · exact ⟨[], by simpa using h3⟩

theorem runBatch_failed_extends (as : List Archive) (st : BatchState) :
    ∃ l, (runBatch as st).1.failed_list = st.failed_list ++ l := by
  induction as generalizing st with
  | nil => exact ⟨[], by simp [runBatch]⟩
  | cons a rest ih =>
    obtain ⟨l2, h2⟩ := ih (convert_kmz a st).1
    obtain ⟨l1, h1⟩ := convert_failed_extends a st
    refine ⟨l1 ++ l2, ?_⟩
    show (runBatch rest (convert_kmz a st).1).1.failed_list = _
    rw [h2, h1, List.append_assoc]

theorem runBatch_events_cons (a : Archive) (rest : List Archive) (st : BatchState) :
    (runBatch (a :: rest) st).2 =
      (convert_kmz a st).2 ++ (runBatch rest (convert_kmz a st).1).2 := rfl

/-! ### Lemmas about the success log -/

theorem sorted_names_sorted (l : List String) :
    (sorted_names l).Sorted (fun x y => x ≤ y) :=
  List.sorted_insertionSort _ _

theorem sorted_names_nodup (l : List String) : (sorted_names l).Nodup :=
  ((List.perm_insertionSort _ _).nodup_iff).mpr (List.nodup_dedup l)

theorem sorted_names_mem (l : List String) : ∀ x, x ∈ sorted_names l ↔ x ∈ l := by
  intro x
  unfold sorted_names
  rw [List.mem_insertionSort, List.mem_dedup]

theorem sorted_names_perm_inv {l1 l2 : List String} (h : l1.Perm l2) :
    sorted_names l1 = sorted_names l2 := by
  haveI : IsAntisymm String (fun x y : String => x ≤ y) := ⟨fun a b h1 h2 => le_antisymm h1 h2⟩
  refine List.eq_of_perm_of_sorted (r := fun x y => x ≤ y) ?_ ?_ ?_
  · exact (List.perm_insertionSort _ _).trans ((h.dedup).trans
      (List.perm_insertionSort _ _).symm)
  · exact List.sorted_insertionSort _ _
  · exact List.sorted_insertionSort _ _

theorem traverseOpt_isSome {α β : Type} (f : α → Option β) (l : List α) :
    (traverseOpt f l).isSome = l.all (fun x => (f x).isSome) := by
  induction l with
  | nil => rfl
  | cons x xs ih =>
    unfold traverseOpt
    rcases hf : f x with _ | y <;> rcases ht : traverseOpt f xs with _ | ys <;>
      rw [ht] at ih <;> simp [hf, List.all_cons, ← ih]

/-! ### The claims -/

/-- Claim C1: for every successfully opened source image of pixel dimensions
(W, H) and every valid 4-point corner quad, the rectification step builds
exactly 4 ground-control points binding corner 0 to pixel (0, H), corner 1
to pixel (W, H), corner 2 to pixel (W, 0) and corner 3 to pixel (0, 0),
each with geographic z = 0.  A valid corner point is a tuple with at least
a longitude and a latitude field. -/
theorem claim_C1 (x0 y0 x1 y1 x2 y2 x3 y3 : Rat) (r0 r1 r2 r3 : List Rat) (W H : Nat) :
    mkGCPs [x0 :: y0 :: r0, x1 :: y1 :: r1, x2 :: y2 :: r2, x3 :: y3 :: r3] W H =
      some [⟨x0, y0, 0, 0, H⟩, ⟨x1, y1, 0, W, H⟩, ⟨x2, y2, 0, W, 0⟩, ⟨x3, y3, 0, 0, 0⟩] := rfl

/-- Claim C2: when the output file already exists at the target path derived
from the archive base name, a conversion of that archive is a no-op: the
filesystem and the success and failure lists are unchanged, the base name is
appended to the skipped list, and the only event is the skip message (no
extraction, parsing, translate or warp happens). -/
theorem claim_C2 (a : Archive) (st : BatchState) (h : outTifOf a ∈ st.fs) :
    (convert_kmz a st).1.fs = st.fs ∧
    (convert_kmz a st).1.success_list = st.success_list ∧
    (convert_kmz a st).1.failed_list = st.failed_list ∧
    (convert_kmz a st).1.skipped_list = st.skipped_list ++ [baseOf a] ∧
    (convert_kmz a st).2 = [Event.printMsg ("Skipping " ++ baseOf a ++ " (already exists)")] := by
  rw [convert_skip_eq a st h]
  exact ⟨rfl, rfl, rfl, rfl, rfl⟩

/-- Witness for claim C2 at a concrete input: the output of `sampleArchive`
already exists in `skipState`, so the conversion only appends to the
skipped list. -/
theorem claim_C2_witness :
    outTifOf sampleArchive ∈ skipState.fs ∧
    ((convert_kmz sampleArchive skipState).1.fs = skipState.fs ∧
     (convert_kmz sampleArchive skipState).1.success_list = skipState.success_list ∧
     (convert_kmz sampleArchive skipState).1.failed_list = skipState.failed_list ∧
     (convert_kmz sampleArchive skipState).1.skipped_list =
       skipState.skipped_list ++ [baseOf sampleArchive] ∧
     (convert_kmz sampleArchive skipState).2 =
       [Event.printMsg ("Skipping " ++ baseOf sampleArchive ++ " (already exists)")]) :=
  ⟨by decide, claim_C2 sampleArchive skipState (by decide)⟩

/-- Claim C3: when the quad text parses to a number of coordinate tuples
other than 4, the conversion fails with the wrong-point-count condition,
the base name goes to the failed list, and neither the translate step nor
the warp step is ever invoked. -/
theorem claim_C3 (a : Archive) (st : BatchState) (mem : List String) (t : String) (n : Nat)
    (hskip : outTifOf a ∉ st.fs)
    (hex : a.extract = some mem)
    (hkml : kmlCandidates (extractedFs st.fs a mem) a ≠ [])
    (hparse : a.parseOk = true)
    (hq : a.quadText = some t)
    (hc : (parseCoords t).map List.length = some n)
    (hn : n ≠ 4) :
    (convert_kmz a st).1.failed_list = st.failed_list ++ [baseOf a] ∧
    (tryBody a st.fs).2.2 = some ConvError.wrongPointCount ∧
    (∀ d, Event.translate d ∉ (convert_kmz a st).2) ∧
    (∀ d, Event.warp d ∉ (convert_kmz a st).2) := by
  obtain ⟨kml0, ks, hk⟩ := List.exists_cons_of_ne_nil hkml
  rcases hpc : parseCoords t with _ | cs
  · rw [hpc] at hc; cases hc
  · rw [hpc] at hc
    simp only [Option.map_some'] at hc
    injection hc with hc
    have hlen : cs.length ≠ 4 := by rw [hc]; exact hn
    have hpp : parsePhase a (extractedFs st.fs a mem) =
        ([Event.parseKml (joinPath (tmpDirOf a) kml0)],
         Except.error ConvError.wrongPointCount) := by
      unfold parsePhase
      rw [hk]
      simp [hparse, hq, hpc, hlen]
    have htb : tryBody a st.fs =
        (extractedFs st.fs a mem,
         [Event.makedirs (tmpDirOf a), Event.extractAll a.path (tmpDirOf a)] ++
           [Event.parseKml (joinPath (tmpDirOf a) kml0)],
         some ConvError.wrongPointCount) := by
      unfold tryBody
      rw [hex]
      dsimp only
      rw [hpp]
    rw [convert_fail_eq a st _ _ _ hskip htb]
    refine ⟨rfl, ?_, ?_, ?_⟩
    · rw [htb]
    · intro d; simp
    · intro d; simp

/-- Witness for claim C3 at a concrete input: `threePointArchive` carries a
three-tuple quad text and fails with the wrong-point-count condition without
reaching translate or warp. -/
theorem claim_C3_witness :
    (convert_kmz threePointArchive emptyState).1.failed_list =
      emptyState.failed_list ++ [baseOf threePointArchive] ∧
    (tryBody threePointArchive emptyState.fs).2.2 = some ConvError.wrongPointCount ∧
    (∀ d, Event.translate d ∉ (convert_kmz threePointArchive emptyState).2) ∧
    (∀ d, Event.warp d ∉ (convert_kmz threePointArchive emptyState).2) :=
  claim_C3 threePointArchive emptyState ["doc.kml", "img.png"] ("0,0 1,0 1,1") 3
    (by decide) rfl (by decide) rfl rfl (by decide) (by decide)

/-- Counterexample to claim C4: after a completed (successful) conversion of
`sampleArchive` the extraction working directory is still present in the
filesystem, so it is not destroyed on every exit path as the claim states. -/
theorem claim_C4_counterexample :
    (convert_kmz sampleArchive emptyState).1.success_list = ["overlay"] ∧
    tmpDirOf sampleArchive ∈ (convert_kmz sampleArchive emptyState).1.fs := by
  decide

/-- Claim C4 as amended: on every non-skip conversion the extraction working
directory is created and is never removed; it is still in the filesystem
when the conversion returns, on success and on failure alike, and no
removal of it is ever performed. -/
theorem claim_C4_amended (a : Archive) (st : BatchState) (h : outTifOf a ∉ st.fs) :
    tmpDirOf a ∈ (convert_kmz a st).1.fs ∧
    Event.removeFile (tmpDirOf a) ∉ (convert_kmz a st).2 := by
  rcases htb : tryBody a st.fs with ⟨fs2, evs, err⟩
  have h1 := tryBody_keeps_tmpDir a st.fs
  have h2 := tryBody_removeFile a st.fs
  rw [htb] at h1 h2
  cases err with
  | none =>
    rw [convert_ok_eq a st fs2 evs h htb]
    refine ⟨h1, ?_⟩
    intro hm
    simp only [List.mem_cons, List.mem_append, List.mem_singleton] at hm
    rcases hm with (hb | hb) | (hb | hb)
    · cases hb
    · exact absurd (h2 _ hb) (Ne.symm (tmpTif_ne_tmpDir a))
    · cases hb
    · cases hb
  | some e =>
    rw [convert_fail_eq a st fs2 evs e h htb]
    refine ⟨h1, ?_⟩
    intro hm
    simp only [List.mem_cons, List.mem_append, List.mem_singleton] at hm
    rcases hm with (hb | hb) | (hb | hb)
    · cases hb
    · exact absurd (h2 _ hb) (Ne.symm (tmpTif_ne_tmpDir a))
    · cases hb
    · cases hb

/-- Witness for the amended claim C4 at a concrete input. -/
theorem claim_C4_witness :
    tmpDirOf sampleArchive ∈ (convert_kmz sampleArchive emptyState).1.fs ∧
    Event.removeFile (tmpDirOf sampleArchive) ∉ (convert_kmz sampleArchive emptyState).2 :=
  claim_C4_amended sampleArchive emptyState (by decide)

/-- Counterexample to claim C5: when the warp step fails, the conversion
ends on the failure path with the intermediate control-point-tagged raster
still on disk, so it is not removed on the failure path as the claim
states. -/
theorem claim_C5_counterexample :
    (convert_kmz warpFailArchive emptyState).1.failed_list = ["overlay2"] ∧
    tmpTifOf warpFailArchive ∈ (convert_kmz warpFailArchive emptyState).1.fs := by
  decide

/-- Claim C5 as amended: the intermediate pre-warp raster is removed before
the conversion returns on the success path, but when the warp step fails it
remains on disk. -/
theorem claim_C5_amended (a : Archive) (st : BatchState) (h : outTifOf a ∉ st.fs) :
    ((tryBody a st.fs).2.2 = none → tmpTifOf a ∉ (convert_kmz a st).1.fs) ∧
    ((tryBody a st.fs).2.2 = some ConvError.warpFailed →
      tmpTifOf a ∈ (convert_kmz a st).1.fs) := by
  constructor
  · intro hn
    have hs := (tryBody_success_fs a st.fs hn).2
    rcases htb : tryBody a st.fs with ⟨fs2, evs, err⟩
    rw [htb] at hs hn
    dsimp only at hn
    subst hn
    rw [convert_ok_eq a st fs2 evs h htb]
    exact hs
  · intro hw
    have hs := tryBody_warpfail_fs a st.fs hw
    rcases htb : tryBody a st.fs with ⟨fs2, evs, err⟩
    rw [htb] at hs hw
    dsimp only at hw
    subst hw
    rw [convert_fail_eq a st fs2 evs _ h htb]
    exact hs

/-- Witness for the amended claim C5 at a concrete input. -/
theorem claim_C5_witness :
    ((tryBody warpFailArchive emptyState.fs).2.2 = none →
      tmpTifOf warpFailArchive ∉ (convert_kmz warpFailArchive emptyState).1.fs) ∧
    ((tryBody warpFailArchive emptyState.fs).2.2 = some ConvError.warpFailed →
      tmpTifOf warpFailArchive ∈ (convert_kmz warpFailArchive emptyState).1.fs) :=
  claim_C5_amended warpFailArchive emptyState (by decide)

/-- Counterexample to claim C6: a batch run over the empty list of
discovered archives returns before the loop and reports no final summary,
so the summary is not reported for every list of discovered archives. -/
theorem claim_C6_counterexample :
    (mainRun [] emptyState ("01/01/2026 00:00:00") []).2.1.any isSummary = false := by
  decide

/-- Claim C6 as amended: for every batch run over a nonempty list of
discovered archives, a failure in one archive never aborts the run: every
discovered archive contributes exactly one outcome, and a final summary
partitioning the base names into successful, skipped and failed is
reported. -/
theorem claim_C6_amended (archives : List Archive) (st : BatchState) (ts : String)
    (log : List String) (h : archives ≠ []) :
    Event.summary (mainRun archives st ts log).1.success_list
        (mainRun archives st ts log).1.skipped_list
        (mainRun archives st ts log).1.failed_list ∈ (mainRun archives st ts log).2.1 ∧
    outcomeCount (mainRun archives st ts log).1 = outcomeCount st + archives.length := by
  obtain ⟨a, rest, rfl⟩ := List.exists_cons_of_ne_nil h
  unfold mainRun
  rw [if_neg (by simp)]
  constructor
  · simp
  · exact runBatch_outcomeCount _ _

/-- Witness for the amended claim C6 at a concrete input. -/
theorem claim_C6_witness :
    Event.summary (mainRun [sampleArchive] emptyState ("t") []).1.success_list
        (mainRun [sampleArchive] emptyState ("t") []).1.skipped_list
        (mainRun [sampleArchive] emptyState ("t") []).1.failed_list
      ∈ (mainRun [sampleArchive] emptyState ("t") []).2.1 ∧
    outcomeCount (mainRun [sampleArchive] emptyState ("t") []).1 =
      outcomeCount emptyState + [sampleArchive].length :=
  claim_C6_amended [sampleArchive] emptyState ("t") [] (by decide)

/-- Claim C7: whenever at least one conversion succeeded, the batch appends
to the log exactly one timestamped section listing the successful base
names sorted alphabetically and with duplicates removed; the section list
is sorted, duplicate-free, holds exactly the successful names, and does not
depend on the processing order; the previous log content is kept as a
prefix (append-only). -/
theorem claim_C7 (su : List String) (ts : String) (log : List String) (h : su ≠ []) :
    log_successful_conversions su ts log =
      log ++ [""] ++ ["--- Conversion on " ++ ts ++ " ---"] ++ sorted_names su ++ [""] ∧
    (sorted_names su).Sorted (fun x y => x ≤ y) ∧
    (sorted_names su).Nodup ∧
    (∀ x, x ∈ sorted_names su ↔ x ∈ su) ∧
    (∀ su2, su.Perm su2 →
      log_successful_conversions su2 ts log = log_successful_conversions su ts log) := by
  obtain ⟨x, xs, rfl⟩ := List.exists_cons_of_ne_nil h
  refine ⟨rfl, sorted_names_sorted _, sorted_names_nodup _, sorted_names_mem _, ?_⟩
  intro su2 hp
  have hne : su2 ≠ [] := by
    intro hn
    rw [hn] at hp
    exact absurd hp.eq_nil (by simp)
  obtain ⟨y, ys, hys⟩ := List.exists_cons_of_ne_nil hne
  subst hys
  have h1 := sorted_names_perm_inv hp
  simp [log_successful_conversions, h1]

/-- Witness for claim C7 at a concrete input: successes B then A produce one
appended section listing A then B. -/
theorem claim_C7_witness :
    (["B", "A"] ≠ ([] : List String)) ∧
    (log_successful_conversions ["B", "A"] ("t") [] =
      [] ++ [""] ++ ["--- Conversion on " ++ "t" ++ " ---"] ++ sorted_names ["B", "A"] ++ [""] ∧
    (sorted_names ["B", "A"]).Sorted (fun x y => x ≤ y) ∧
    (sorted_names ["B", "A"]).Nodup ∧
    (∀ x, x ∈ sorted_names ["B", "A"] ↔ x ∈ ["B", "A"]) ∧
    (∀ su2, List.Perm ["B", "A"] su2 →
      log_successful_conversions su2 ("t") [] =
        log_successful_conversions ["B", "A"] ("t") [])) :=
  ⟨by decide, claim_C7 ["B", "A"] ("t") [] (by decide)⟩

/-- Counterexample to claim C8: the token "5" has a single comma-separated
field, not two or three, yet the coordinate parser accepts it. -/
theorem claim_C8_counterexample :
    ((parsePoint ("5")).isSome = true ∧ (pySplitComma ("5")).length = 1) ∧
    ¬ ((parsePoint ("5")).isSome = true →
        (pySplitComma ("5")).length = 2 ∨ (pySplitComma ("5")).length = 3) := by
  decide

/-- Claim C8 as amended: the coordinate parser accepts a token exactly when
every comma-separated field of it parses as a float, regardless of how many
fields there are; it fails on any non-numeric field.  (The restriction to
two or three fields in the original claim does not hold: no field count
check exists at parse time.) -/
theorem claim_C8_amended (t : String) :
    (parsePoint t).isSome = (pySplitComma t).all (fun f => (pyFloat f).isSome) :=
  traverseOpt_isSome pyFloat (pySplitComma t)

/-- Claim C9: when processing of an archive raises an error, the driver
records the base name in the failed list, emits the failure status line
carrying the error description, and proceeds: the remaining archives are
all still processed, each contributing its outcome. -/
theorem claim_C9 (a : Archive) (rest : List Archive) (st : BatchState) (e : ConvError)
    (hskip : outTifOf a ∉ st.fs)
    (herr : (tryBody a st.fs).2.2 = some e) :
    baseOf a ∈ (runBatch (a :: rest) st).1.failed_list ∧
    Event.printMsg ("Failed: " ++ baseOf a ++ " -> " ++ describe e) ∈ (runBatch (a :: rest) st).2 ∧
    outcomeCount (runBatch (a :: rest) st).1 = outcomeCount st + 1 + rest.length := by
  rcases htb : tryBody a st.fs with ⟨fs2, evs, err⟩
  rw [htb] at herr
  dsimp only at herr
  subst herr
  have hceq := convert_fail_eq a st fs2 evs e hskip htb
  refine ⟨?_, ?_, ?_⟩
  · obtain ⟨l, hl⟩ := runBatch_failed_extends rest (convert_kmz a st).1
    rw [show (runBatch (a :: rest) st).1 = (runBatch rest (convert_kmz a st).1).1 from rfl,
        hl, hceq]
    simp
  · rw [runBatch_events_cons, hceq]
    simp
  · rw [show (runBatch (a :: rest) st).1 = (runBatch rest (convert_kmz a st).1).1 from rfl,
        runBatch_outcomeCount, convert_outcomeCount]

/-- Witness for claim C9 at a concrete input: an unreadable archive is
recorded as failed with the extraction error message and the run goes on. -/
theorem claim_C9_witness :
    baseOf badZipArchive ∈ (runBatch [badZipArchive] emptyState).1.failed_list ∧
    Event.printMsg ("Failed: " ++ baseOf badZipArchive ++ " -> " ++
        describe ConvError.extractionError) ∈ (runBatch [badZipArchive] emptyState).2 ∧
    outcomeCount (runBatch [badZipArchive] emptyState).1 =
      outcomeCount emptyState + 1 + ([] : List Archive).length :=
  claim_C9 badZipArchive [] emptyState ConvError.extractionError (by decide) (by decide)

/-- Claim C10: every invocation of the conversion appends the base name to
exactly one of the three outcome lists: the success path (on which the
output exists and the intermediate is gone), the failure path, or the skip
path; the other two lists are unchanged in each case. -/
theorem claim_C10 (a : Archive) (st : BatchState) :
    ((convert_kmz a st).1.success_list = st.success_list ++ [baseOf a] ∧
     (convert_kmz a st).1.failed_list = st.failed_list ∧
     (convert_kmz a st).1.skipped_list = st.skipped_list ∧
     outTifOf a ∈ (convert_kmz a st).1.fs ∧ tmpTifOf a ∉ (convert_kmz a st).1.fs) ∨
    ((convert_kmz a st).1.failed_list = st.failed_list ++ [baseOf a] ∧
     (convert_kmz a st).1.success_list = st.success_list ∧
     (convert_kmz a st).1.skipped_list = st.skipped_list) ∨
    ((convert_kmz a st).1.skipped_list = st.skipped_list ++ [baseOf a] ∧
     (convert_kmz a st).1.success_list = st.success_list ∧
     (convert_kmz a st).1.failed_list = st.failed_list) := by
  by_cases h : outTifOf a ∈ st.fs
  · rw [convert_skip_eq a st h]
    right; right; exact ⟨rfl, rfl, rfl⟩
  · rcases htb : tryBody a st.fs with ⟨fs2, evs, _ | e⟩
    · have hsf := tryBody_success_fs a st.fs (by rw [htb])
      rw [htb] at hsf
      rw [convert_ok_eq a st fs2 evs h htb]
      left
      exact ⟨rfl, rfl, rfl, hsf.1, hsf.2⟩
    · rw [convert_fail_eq a st fs2 evs e h htb]
      right; left; exact ⟨rfl, rfl, rfl⟩
